import Mathlib

/-!
Verification of the cw-acl access-control contract.

This file embeds the contract's core (path canonicalization, the ACL storage
schema, the grant-manager mutations, the hierarchical authorization resolver
and the paginated path query) as executable Lean definitions, translated
directly from the Rust source under `src/`, and proves properties about them.

Modelling conventions:
- Rust `String` values are modelled as `List Char`.
- `cosmwasm_std::Timestamp` is modelled as `Nat` (only ordering and
  `plus_seconds` are used by the contract, both order-faithful).
- each `cw_storage_plus::Map` is modelled as an association list with at most
  one entry per key (`alSet` replaces any previous binding); ordered range
  iteration is modelled by sorting the keys ascending at read time.
- `u32` counters are `Nat` values together with the checked-arithmetic
  helpers `addU32`/`subU32` from `math.rs`, which fail exactly when the
  `u32` operation would overflow or underflow.
-/

namespace CwAcl

/-! ### Path canonicalizer (`src/utils.rs`) -/

/-- Rust `char::is_ascii_graphic`: the range `'!'..='~'` (0x21 to 0x7E). -/
def isAsciiGraphic (c : Char) : Bool :=
  33 ≤ c.toNat && c.toNat ≤ 126

/-- The character substitution of `str::replace(" ", "-")`. -/
def replChar (c : Char) : Char :=
  if c = ' ' then '-' else c

/-- Rust `str::replace(" ", "-")` on a character list. -/
def replaceSpaceDash (s : List Char) : List Char :=
  s.map replChar

/-- Rust `str::trim_matches('/')`: removes leading and trailing `'/'`. -/
def trimMatchesSlash (s : List Char) : List Char :=
  List.rdropWhile (fun c => c = '/') (List.dropWhile (fun c => c = '/') s)

/-- `remove_non_printables` from `src/utils.rs`: keeps ASCII-graphic chars. -/
def removeNonPrintables (s : List Char) : List Char :=
  s.filter isAsciiGraphic

/-- `to_canonical_path` from `src/utils.rs`: trim slashes, prepend one slash,
replace spaces with hyphens, strip non-ASCII-graphic characters. -/
def toCanonicalPath (raw : List Char) : List Char :=
  removeNonPrintables (replaceSpaceDash ('/' :: trimMatchesSlash raw))

/-- `to_canonical_path_from_crumbs` from `src/utils.rs`:
`format!("/{}", crumbs.join("/"))`. -/
def toCanonicalPathFromCrumbs (crumbs : List (List Char)) : List Char :=
  '/' :: List.intercalate ['/'] crumbs

/-- Rust `str::split("/")`. Always returns a non-empty list of segments;
splitting the empty string yields `[[]]`, as in Rust. -/
def splitSlash : List Char → List (List Char)
  | [] => [[]]
  | c :: rest =>
    match splitSlash rest with
    | [] => [[]]
    | s :: ss => if c = '/' then [] :: s :: ss else (c :: s) :: ss

/-! ### Ordered-map model (`cw_storage_plus::Map`) -/

/-- Point lookup (`Map::may_load` / `Map::load(..).ok()`). -/
def alGet {κ β : Type} [DecidableEq κ] (m : List (κ × β)) (k : κ) : Option β :=
  (m.find? (fun kv => decide (kv.1 = k))).map (fun kv => kv.2)

/-- Point write (`Map::save`): replaces any previous binding of the key. -/
def alSet {κ β : Type} [DecidableEq κ] (m : List (κ × β)) (k : κ) (v : β) :
    List (κ × β) :=
  m.filter (fun kv => decide (kv.1 ≠ k)) ++ [(k, v)]

/-- Point delete (`Map::remove`): a no-op when the key is absent. -/
def alRemove {κ β : Type} [DecidableEq κ] (m : List (κ × β)) (k : κ) :
    List (κ × β) :=
  m.filter (fun kv => decide (kv.1 ≠ k))

/-- Strict lexicographic order on character lists, mirroring the ascending
byte order of the storage's range iteration. -/
def lexLt : List Char → List Char → Bool
  | [], [] => false
  | [], _ :: _ => true
  | _ :: _, [] => false
  | a :: as, b :: bs =>
    if a.toNat < b.toNat then true
    else if b.toNat < a.toNat then false
    else lexLt as bs

/-- Insert into a list sorted ascending by `key`. -/
def insertAscKey {β : Type} (key : β → List Char) (x : β) :
    List β → List β
  | [] => [x]
  | y :: l => if lexLt (key x) (key y) then x :: y :: l else y :: insertAscKey key x l

/-- Insertion sort ascending by `key`: the order in which the storage's
range scans yield their entries. -/
def sortAscKey {β : Type} (key : β → List Char) (l : List β) : List β :=
  l.foldr (insertAscKey key) []

/-- Sort a list of keys ascending. -/
def sortAsc (l : List (List Char)) : List (List Char) :=
  sortAscKey id l

/-! ### Data model (`src/models.rs`, `src/state.rs`, `src/error.rs`) -/

/-- `AuthRecord` from `src/models.rs`: an optional expiration timestamp. -/
structure AuthRecord where
  expiresAt : Option Nat
deriving DecidableEq, Repr

/-- `AuthRoleInfo` from `src/models.rs`. -/
structure AuthRoleInfo where
  description : Option (List Char)
  createdAt : Nat
  createdBy : List Char
  nPrincipals : Nat
deriving DecidableEq, Repr

/-- Modelled from the spec: the `ContractError` enum of `src/error.rs`, which
is absent from the sources (only `mod error;` and the construction sites
remain). Its kinds are those of spec section 7 — ValidationError,
NotAuthorized, AlreadyExists, NotFound, and the checked-arithmetic failures
wrapped as standard errors — matching the variants the remaining code
constructs (`ValidationError`, `NotAuthorized`, `Std(Overflow)`,
`Std(DivideByZero)`). -/
inductive ContractError where
  | validationError (reason : List Char)
  | notAuthorized (reason : List Char)
  | alreadyExists (reason : List Char)
  | notFound (reason : List Char)
  | stdOverflow
  | stdDivideByZero
deriving DecidableEq, Repr

/-- `true` exactly on the `AlreadyExists` error kind. -/
def ContractError.isAlreadyExists : ContractError → Bool
  | ContractError.alreadyExists _ => true
  | _ => false

/-- `true` exactly on the `NotFound` error kind. -/
def ContractError.isNotFound : ContractError → Bool
  | ContractError.notFound _ => true
  | _ => false

/-- `add_u32` from `src/math.rs`: checked `u32` addition. -/
def addU32 (a b : Nat) : Except ContractError Nat :=
  if a + b < 4294967296 then Except.ok (a + b) else Except.error ContractError.stdOverflow

/-- `sub_u32` from `src/math.rs`: checked `u32` subtraction. -/
def subU32 (a b : Nat) : Except ContractError Nat :=
  if b ≤ a then Except.ok (a - b) else Except.error ContractError.stdOverflow

/-- The map collections of `src/state.rs` that the core operates on.
Singleton metadata items (operator, name, description, creation data) are
not involved in any claim and are omitted. -/
structure AclState where
  pathRefCounts : List (List Char × Nat)
  principalPathAuths : List ((List Char × List Char) × AuthRecord)
  principalRoleAuths : List ((List Char × List Char) × AuthRecord)
  roleInfos : List (List Char × AuthRoleInfo)
  rolePaths : List ((List Char × List Char) × Nat)
  pathRoles : List ((List Char × List Char) × Nat)
deriving DecidableEq, Repr

/-- The state right after instantiation: every collection is empty. -/
def AclState.empty : AclState :=
  { pathRefCounts := [], principalPathAuths := [], principalRoleAuths := []
    roleInfos := [], rolePaths := [], pathRoles := [] }

/-- `decrement_or_remove_path_ref_count` from `src/utils.rs`. -/
def decrementOrRemovePathRefCount (m : List (List Char × Nat))
    (canonicalPath : List Char) : Except ContractError (List (List Char × Nat)) :=
  match alGet m canonicalPath with
  | some n =>
    if n = 1 then Except.ok (alRemove m canonicalPath)
    else
      match subU32 n 1 with
      | Except.ok v => Except.ok (alSet m canonicalPath v)
      | Except.error e => Except.error e
  | none => Except.ok m

/-! ### Grant manager (`src/execute/*.rs`) -/

/-- `exec_allow` from `src/execute/allow.rs`: canonicalizes the path, saves
the path ref-count entry (the source writes the literal `0`), and writes the
direct grant with `expires_at = now + ttl` when a ttl is given. -/
def execAllow (s : AclState) (time : Nat) (principal path : List Char)
    (ttl : Option Nat) : Except ContractError AclState :=
  let auth : AuthRecord := { expiresAt := ttl.map (fun n => time + n) }
  let cp := toCanonicalPath path
  Except.ok { s with
    pathRefCounts := alSet s.pathRefCounts cp 0
    principalPathAuths := alSet s.principalPathAuths (principal, cp) auth }

/-- `exec_deny` from `src/execute/deny.rs`. -/
def execDeny (s : AclState) (principal path : List Char) :
    Except ContractError AclState := do
  let cp := toCanonicalPath path
  let prc ← decrementOrRemovePathRefCount s.pathRefCounts cp
  Except.ok { s with
    pathRefCounts := prc
    principalPathAuths := alRemove s.principalPathAuths (principal, cp) }

/-- `exec_allow_role` from `src/execute/allow_role.rs`. -/
def execAllowRole (s : AclState) (role path : List Char) :
    Except ContractError AclState :=
  let cp := toCanonicalPath path
  Except.ok { s with
    pathRefCounts := alSet s.pathRefCounts cp 0
    rolePaths := alSet s.rolePaths (role, cp) 0
    pathRoles := alSet s.pathRoles (cp, role) 0 }

/-- `exec_deny_role` from `src/execute/deny_role.rs`. -/
def execDenyRole (s : AclState) (role path : List Char) :
    Except ContractError AclState := do
  let cp := toCanonicalPath path
  let prc ← decrementOrRemovePathRefCount s.pathRefCounts cp
  Except.ok { s with
    pathRefCounts := prc
    rolePaths := alRemove s.rolePaths (role, cp)
    pathRoles := alRemove s.pathRoles (cp, role) }

/-- `exec_create_role` from `src/execute/create_role.rs`: fails (with the
`NotAuthorized` kind, message `role {name} already exists`) when the role is
present; otherwise writes the `AuthRoleInfo` and registers each initial
path in the ref-count map and both role-path indices. -/
def execCreateRole (s : AclState) (time : Nat) (sender : List Char)
    (name : List Char) (description : Option (List Char))
    (paths : Option (List (List Char))) : Except ContractError AclState :=
  match alGet s.roleInfos name with
  | some _ =>
    Except.error (ContractError.notAuthorized
      ("role ".data ++ name ++ " already exists".data))
  | none =>
    let info : AuthRoleInfo :=
      { description := description, createdAt := time, createdBy := sender
        nPrincipals := 0 }
    let s1 := { s with roleInfos := alSet s.roleInfos name info }
    Except.ok ((paths.getD []).foldl (fun st path =>
      let cp := toCanonicalPath path
      { st with
        pathRefCounts := alSet st.pathRefCounts cp 0
        rolePaths := alSet st.rolePaths (name, cp) 0
        pathRoles := alSet st.pathRoles (cp, name) 0 }) s1)

/-- `exec_remove_role` from `src/execute/remove_role.rs`. The set of paths
to clean up is collected, as in the source, by a prefix scan of
`PATH_ROLES` — whose keys are `(path, role)` — using the role name as the
first (path) key component. The role info entry is then removed, and each
collected path has its ref count released and both index entries removed. -/
def execRemoveRole (s : AclState) (role : List Char) :
    Except ContractError AclState :=
  let pathsToRemove : List (List Char) :=
    sortAsc ((s.pathRoles.filter (fun kv => decide (kv.1.1 = role))).map
      (fun kv => kv.1.2))
  let s1 := { s with roleInfos := alRemove s.roleInfos role }
  pathsToRemove.foldlM (fun st path => do
    let prc ← decrementOrRemovePathRefCount st.pathRefCounts path
    Except.ok { st with
      pathRefCounts := prc
      rolePaths := alRemove st.rolePaths (role, path)
      pathRoles := alRemove st.pathRoles (path, role) }) s1

/-- `exec_grant_role` from `src/execute/grant_role.rs`: fails (with the
`NotAuthorized` kind, message `role {role} does not exist`) when the role
info is absent; otherwise increments `n_principals` with checked `u32`
addition and writes (or overwrites) the membership record. -/
def execGrantRole (s : AclState) (time : Nat) (principal role : List Char)
    (ttl : Option Nat) : Except ContractError AclState :=
  let auth : AuthRecord := { expiresAt := ttl.map (fun n => time + n) }
  match alGet s.roleInfos role with
  | none =>
    Except.error (ContractError.notAuthorized
      ("role ".data ++ role ++ " does not exist".data))
  | some info => do
    let n ← addU32 info.nPrincipals 1
    Except.ok { s with
      roleInfos := alSet s.roleInfos role { info with nPrincipals := n }
      principalRoleAuths := alSet s.principalRoleAuths (principal, role) auth }

/-- `exec_revoke_role` from `src/execute/revoke_role.rs`: fails (with the
`NotAuthorized` kind) when the role info is absent; otherwise decrements
`n_principals` with checked `u32` subtraction and deletes the membership. -/
def execRevokeRole (s : AclState) (principal role : List Char) :
    Except ContractError AclState :=
  match alGet s.roleInfos role with
  | none =>
    Except.error (ContractError.notAuthorized
      ("role ".data ++ role ++ " does not exist".data))
  | some info => do
    let n ← subU32 info.nPrincipals 1
    Except.ok { s with
      roleInfos := alSet s.roleInfos role { info with nPrincipals := n }
      principalRoleAuths := alRemove s.principalRoleAuths (principal, role) }

/-! ### Authorization resolver (`src/query/is_allowed.rs`) -/

/-- The roles indexed under a canonical path: the ascending key scan
`PATH_ROLES.prefix(canonical_path).keys(..)`. -/
def pathRolesAt (s : AclState) (canonicalPath : List Char) : List (List Char) :=
  sortAsc ((s.pathRoles.filter (fun kv => decide (kv.1.1 = canonicalPath))).map
    (fun kv => kv.1.2))

/-- The body of the roles loop of `try_authorize_path`: the principal's
membership in `role` exists and is not expired (`expires_at` absent, or
`time < expiry`). -/
def memValid (s : AclState) (time : Nat) (principal role : List Char) : Bool :=
  match alGet s.principalRoleAuths (principal, role) with
  | some a =>
    match a.expiresAt with
    | some e => decide (time < e)
    | none => true
  | none => false

/-- The `while !crumbs.is_empty()` loop of `try_authorize_path`, with the
crumbs carried in reverse so that popping the last crumb is structural
recursion on the list head. At each level: a direct grant, if present, is
authoritative (an expired one fails the whole check at once); otherwise any
non-expired role membership among the roles indexed at the level succeeds;
otherwise the search continues one level up. -/
def tryAuthRev (s : AclState) (time : Nat) (principal origPath : List Char) :
    List (List Char) → Except (List Char) Unit
  | [] =>
    Except.error (principal ++ " not authorized to ".data ++ toCanonicalPath origPath)
  | c :: rest =>
    let cp := toCanonicalPathFromCrumbs (c :: rest).reverse
    match alGet s.principalPathAuths (principal, cp) with
    | some a =>
      match a.expiresAt with
      | some e =>
        if e ≤ time then
          Except.error (principal ++ " access to ".data ++ cp ++ " has expired".data)
        else Except.ok ()
      | none => Except.ok ()
    | none =>
      if (pathRolesAt s cp).any (fun r => memValid s time principal r) then
        Except.ok ()
      else tryAuthRev s time principal origPath rest

/-- `try_authorize_path` from `src/query/is_allowed.rs`. -/
def tryAuthorizePath (s : AclState) (time : Nat) (principal path : List Char) :
    Except (List Char) Unit :=
  tryAuthRev s time principal path ((splitSlash (trimMatchesSlash path)).reverse)

/-- `TestRequirement` from `src/msg.rs`. -/
inductive TestRequirement where
  | any
  | all
deriving DecidableEq, Repr

/-- `IsAllowedParams` from `src/msg.rs`. -/
structure IsAllowedParams where
  principal : List Char
  require : Option TestRequirement
  paths : List (List Char)
  raise : Option Bool
deriving DecidableEq, Repr

/-- `query_is_allowed` from `src/query/is_allowed.rs`. `require` defaults to
`All` and `raise` to `false`. In `All` mode the first failing path decides
the call with its own message; in `Any` mode (and for an empty path list)
the call fails exactly when every path failed, with the messages joined by
`", "`. -/
def queryIsAllowed (s : AclState) (time : Nat) (msg : IsAllowedParams) :
    Except ContractError Bool :=
  let req := msg.require.getD TestRequirement.all
  let rai := msg.raise.getD false
  let errs := msg.paths.filterMap (fun p =>
    match tryAuthorizePath s time msg.principal p with
    | Except.ok _ => none
    | Except.error e => some e)
  match req, errs with
  | TestRequirement.all, e :: _ =>
    if rai then Except.error (ContractError.notAuthorized e) else Except.ok false
  | _, _ =>
    if errs.length = msg.paths.length then
      if rai then
        Except.error (ContractError.notAuthorized (List.intercalate ", ".data errs))
      else Except.ok false
    else Except.ok true

/-! ### Path query layer (`src/query/paths.rs`) -/

/-- `Subject` from `src/msg.rs`. -/
inductive Subject where
  | acl
  | role (r : List Char)
  | principal (p : List Char)
deriving DecidableEq, Repr

/-- `PathsQueryParams` from `src/msg.rs` (`limit` is a `u16`). -/
structure PathsQueryParams where
  subject : Subject
  limit : Option Nat
  start : Option (List Char)
  stop : Option (List Char)
  cursor : Option (List Char)
deriving DecidableEq, Repr

/-- `PathInfo` from `src/responses.rs`. -/
structure PathInfo where
  path : List Char
  expiresAt : Option Nat
deriving DecidableEq, Repr

/-- `PathsResponse` from `src/responses.rs`. -/
structure PathsResponse where
  paths : List PathInfo
  cursor : Option (List Char)
deriving DecidableEq, Repr

/-- The bound checks of the range scan in `query_paths`: a cursor is an
exclusive lower bound (and suppresses `start`); `start` and `stop` are
inclusive bounds. -/
def inBounds (cursor start stop : Option (List Char)) (k : List Char) : Bool :=
  (match cursor with
   | some c => lexLt c k
   | none =>
     match start with
     | some st => !(lexLt k st)
     | none => true) &&
  (match stop with
   | some sp => !(lexLt sp k)
   | none => true)

/-- The full ascending entry list the range scan of `query_paths` draws
from, per subject: all known paths for the ACL, the paths indexed under a
role, or the principal's direct grants annotated with their expirations. -/
def basePage (s : AclState) : Subject → List PathInfo
  | Subject.acl =>
    (sortAsc (s.pathRefCounts.map (fun kv => kv.1))).map
      (fun p => { path := p, expiresAt := none })
  | Subject.role r =>
    (sortAsc ((s.rolePaths.filter (fun kv => decide (kv.1.1 = r))).map
      (fun kv => kv.1.2))).map (fun p => { path := p, expiresAt := none })
  | Subject.principal pr =>
    (sortAscKey Prod.fst ((s.principalPathAuths.filter
      (fun kv => decide (kv.1.1 = pr))).map
      (fun kv => (kv.1.2, kv.2.expiresAt)))).map
      (fun x => { path := x.1, expiresAt := x.2 })

/-- `query_paths` from `src/query/paths.rs`: the page size defaults to 100
and is clamped to at most 500; the bounded ascending scan is truncated to
the page size; the next-page cursor is the last returned path, produced
exactly when the page length equals the page size. -/
def queryPaths (s : AclState) (params : PathsQueryParams) : PathsResponse :=
  let limit := min (params.limit.getD 100) 500
  let infos := ((basePage s params.subject).filter
    (fun i => inBounds params.cursor params.start params.stop i.path)).take limit
  let nextCursor :=
    if infos.length = limit then infos.getLast?.map (fun i => i.path) else none
  { paths := infos, cursor := nextCursor }

/-! ### Statement helpers and concrete fixtures -/

/-- The segment list `try_authorize_path` starts from: the path with leading
and trailing slashes trimmed, split on `/`. -/
def fullCrumbs (path : List Char) : List (List Char) :=
  splitSlash (trimMatchesSlash path)

/-- The canonical path of the most specific level `try_authorize_path`
checks for a given input path. -/
def fullLevelPath (path : List Char) : List Char :=
  toCanonicalPathFromCrumbs (fullCrumbs path)

/-- Whether a mutation result is an error of the given kind. -/
def errorKindIs (r : Except ContractError AclState) (kind : ContractError → Bool) :
    Bool :=
  match r with
  | Except.error e => kind e
  | Except.ok _ => false

/-- Fixture: create role `admin` with initial path `/x`, grant it to
principal `p`, then remove the role. -/
def removeRoleFixture : Except ContractError AclState := do
  let s1 ← execCreateRole AclState.empty 0 "op".data "admin".data none
    (some ["/x".data])
  let s2 ← execGrantRole s1 0 "p".data "admin".data none
  execRemoveRole s2 "admin".data

/-- Fixture: create role `admin`, then grant it twice to the same
principal `p`. -/
def doubleGrantFixture : Except ContractError AclState := do
  let s1 ← execCreateRole AclState.empty 0 "op".data "admin".data none none
  let s2 ← execGrantRole s1 0 "p".data "admin".data none
  execGrantRole s2 0 "p".data "admin".data none

/-- Fixture: allow paths `/x` and `/y` to role `r`. -/
def rolePathsFixture : Except ContractError AclState := do
  let s1 ← execAllowRole AclState.empty "r".data "/x".data
  execAllowRole s1 "r".data "/y".data

/-- The state of `rolePathsFixture` (it succeeds). -/
def rolePathsState : AclState :=
  rolePathsFixture.toOption.getD AclState.empty

/-- Fixture: at time 0, give `p` a direct grant on `/a/b` expiring at
time 10, and a never-expiring membership in role `adm` which carries
path `/a`. -/
def expiredDirectFixture : Except ContractError AclState := do
  let s1 ← execAllow AclState.empty 0 "p".data "/a/b".data (some 10)
  let s2 ← execCreateRole s1 0 "op".data "adm".data none (some ["/a".data])
  execGrantRole s2 0 "p".data "adm".data none

/-- The state of `expiredDirectFixture` (it succeeds). -/
def expiredDirectState : AclState :=
  expiredDirectFixture.toOption.getD AclState.empty

/-- Fixture state for the expired-role-membership scenarios: role `old`
carries `/x` and principal `p` holds it expired at time 5; role `live`
also carries `/x` and `p` holds it without expiration. -/
def expiredRoleFixture : Except ContractError AclState := do
  let s1 ← execCreateRole AclState.empty 0 "op".data "old".data none
    (some ["/x".data])
  let s2 ← execGrantRole s1 0 "p".data "old".data (some 5)
  let s3 ← execCreateRole s2 0 "op".data "live".data none (some ["/x".data])
  execGrantRole s3 0 "p".data "live".data none

/-- The state of `expiredRoleFixture` (it succeeds). -/
def expiredRoleState : AclState :=
  expiredRoleFixture.toOption.getD AclState.empty

/-- Fixture: role `old` carries `/x`; principal `p` holds it with a
membership that expires at time 5 and holds nothing else. -/
def onlyExpiredFixture : Except ContractError AclState := do
  let s1 ← execCreateRole AclState.empty 0 "op".data "old".data none
    (some ["/x".data])
  execGrantRole s1 0 "p".data "old".data (some 5)

/-- The state of `onlyExpiredFixture` (it succeeds). -/
def onlyExpiredState : AclState :=
  onlyExpiredFixture.toOption.getD AclState.empty

/-- The state holding just the role `admin` (created at time 0 by `op`). -/
def adminState : AclState :=
  (execCreateRole AclState.empty 0 "op".data "admin".data none none).toOption.getD
    AclState.empty

/-! ## Theorems -/

/-- Splitting never yields an empty segment list (Rust's `split` always
produces at least one piece). -/
theorem splitSlash_ne_nil (l : List Char) : splitSlash l ≠ [] := by
  cases l with
  | nil => simp [splitSlash]
  | cons c rest =>
    simp only [splitSlash]
    cases h : splitSlash rest with
    | nil => simp
    | cons s ss => by_cases hc : c = '/' <;> simp [hc]

/-- C1: after `CreateRole("admin", ["/x"])`, `GrantRole("p","admin")` and
`RemoveRole("admin")`, the role's `RoleInfo` is gone and the dangling
membership record is retained, yet `IsAllowed("p", ["/x"])` still returns
`true`: the removed role still grants access, because `exec_remove_role`
scans `PATH_ROLES` (keyed `(path, role)`) with the role name as the path
component and therefore removes no index entries. This contradicts the
claim that resolution of a removed role behaves as if it grants nothing. -/
theorem c1_removed_role_still_grants_access :
    removeRoleFixture.map (fun s =>
      (queryIsAllowed s 5
        { principal := "p".data, require := none, paths := ["/x".data], raise := none },
       alGet s.roleInfos "admin".data,
       alGet s.principalRoleAuths ("p".data, "admin".data))) =
    Except.ok (Except.ok true, none, some { expiresAt := none }) := by
  rfl

/-- C2: after `CreateRole("admin", ["/x"])`, `GrantRole("p","admin")` and
`RemoveRole("admin")`, both the `RolePaths ("admin","/x")` and the
`PathRoles ("/x","admin")` index entries survive and the path's reference
count is not released, contrary to the claim that `RemoveRole` removes both
index entries and releases the count: the prefix scan in `exec_remove_role`
runs over `PATH_ROLES` with the role name as the first (path) key
component and finds nothing. -/
theorem c2_removeRole_leaves_index_entries :
    removeRoleFixture.map (fun s =>
      (alGet s.rolePaths ("admin".data, "/x".data),
       alGet s.pathRoles ("/x".data, "admin".data),
       alGet s.pathRefCounts "/x".data,
       alGet s.roleInfos "admin".data)) =
    Except.ok (some 0, some 0, some 0, none) := by
  rfl

/-- C4 counterexample: canonicalization is not idempotent. For the input
`"a/\t"` the tab is stripped only after slash trimming, so one application
yields `"/a/"` and a second application yields `"/a"`. -/
theorem c4_canonicalize_not_idempotent :
    toCanonicalPath (toCanonicalPath "a/\t".data) ≠ toCanonicalPath "a/\t".data := by
  decide

/-- C5: granting role `admin` twice to the same principal leaves
`n_principals = 2` while `PrincipalRoleAuthorizations` holds a single
entry for the role: `exec_grant_role` increments the counter
unconditionally but overwrites the membership record, so the invariant
`n_principals = number of live membership entries` fails in a reachable
state. -/
theorem c5_double_grant_breaks_counter_invariant :
    doubleGrantFixture.map (fun s =>
      ((alGet s.roleInfos "admin".data).map (fun i => i.nPrincipals),
       (s.principalRoleAuths.filter (fun kv => decide (kv.1.2 = "admin".data))).length)) =
    Except.ok (some 2, 1) := by
  rfl

/-- C6 counterexample: creating role `admin` twice fails with the
`NotAuthorized` kind (message `role admin already exists`), not
`AlreadyExists`; granting the non-existent role `ghost` fails with the
`NotAuthorized` kind (message `role ghost does not exist`), not
`NotFound`. -/
theorem c6_error_kinds_counterexample :
    errorKindIs ((execCreateRole AclState.empty 0 "op".data "admin".data none none).bind
      (fun s => execCreateRole s 0 "op".data "admin".data none none))
      ContractError.isAlreadyExists = false ∧
    errorKindIs (execGrantRole AclState.empty 0 "p".data "ghost".data none)
      ContractError.isNotFound = false ∧
    (execCreateRole AclState.empty 0 "op".data "admin".data none none).bind
      (fun s => execCreateRole s 0 "op".data "admin".data none none) =
      Except.error (ContractError.notAuthorized "role admin already exists".data) ∧
    execGrantRole AclState.empty 0 "p".data "ghost".data none =
      Except.error (ContractError.notAuthorized "role ghost does not exist".data) := by
  refine ⟨by decide, by decide, by rfl, by rfl⟩

/-- C7: `AllowPath("p","/x")` writes the path's reference count as the
literal `0` (its doc comment claims it increments), so the release step of
the following `DenyPath("p","/x")` reaches `sub_u32(0, 1)` and the whole
operation fails with an arithmetic underflow error, contrary to the claim
that releasing after the grant that registered the path succeeds. -/
theorem c7_release_after_grant_underflows :
    (execAllow AclState.empty 0 "p".data "/x".data none).map
      (fun s => alGet s.pathRefCounts "/x".data) = Except.ok (some 0) ∧
    (execAllow AclState.empty 0 "p".data "/x".data none).bind
      (fun s => execDeny s "p".data "/x".data) =
      Except.error ContractError.stdOverflow := by
  refine ⟨by rfl, by rfl⟩

/-- C8 counterexample: after `AllowRolePath("r","/x")` and
`AllowRolePath("r","/y")`, the follow-up page-size-1 query from cursor
`"/x"` returns `["/y"]` together with cursor `"/y"` — not, as claimed,
with no cursor — because the returned page is again full. -/
theorem c8_followup_page_returns_cursor :
    rolePathsFixture.map (fun s => queryPaths s
      { subject := Subject.role "r".data, limit := some 1, start := none,
        stop := none, cursor := some "/x".data }) =
    Except.ok { paths := [{ path := "/y".data, expiresAt := none }],
                cursor := some "/y".data } := by
  rfl

/-- C3: at the most specific matching level of a path, a direct grant whose
expiration has been reached makes `try_authorize_path` fail immediately
with the expiry error for that level — it does not fall through to role
grants there or to shorter prefixes — while a path whose own most specific
level has no direct grant but a valid role grant succeeds, so the same
principal checked on the shallower path alone is authorized. -/
theorem c3_expired_direct_grant_authoritative :
    (∀ (s : AclState) (t : Nat) (p q : List Char) (e : Nat),
      alGet s.principalPathAuths (p, fullLevelPath q) =
        some { expiresAt := some e } →
      e ≤ t →
      tryAuthorizePath s t p q =
        Except.error (p ++ " access to ".data ++ fullLevelPath q ++
          " has expired".data)) ∧
    (∀ (s : AclState) (t : Nat) (p q : List Char),
      alGet s.principalPathAuths (p, fullLevelPath q) = none →
      (pathRolesAt s (fullLevelPath q)).any (fun r => memValid s t p r) = true →
      tryAuthorizePath s t p q = Except.ok ()) := by
  have hrev : ∀ q : List Char, ∃ c rest,
      (splitSlash (trimMatchesSlash q)).reverse = c :: rest ∧
      (c :: rest).reverse = splitSlash (trimMatchesSlash q) := by
    intro q
    have hne : (splitSlash (trimMatchesSlash q)).reverse ≠ [] := by
      intro h
      exact splitSlash_ne_nil (trimMatchesSlash q)
        (by simpa using congrArg List.reverse h)
    obtain ⟨c, rest, hcr⟩ := List.exists_cons_of_ne_nil hne
    exact ⟨c, rest, hcr, by rw [← hcr, List.reverse_reverse]⟩
  constructor
  · intro s t p q e hget hle
    obtain ⟨c, rest, hcr, hrr⟩ := hrev q
    simp only [fullLevelPath, fullCrumbs] at hget ⊢
    unfold tryAuthorizePath
    rw [hcr]
    simp only [tryAuthRev]
    rw [hrr, hget]
    simp [hle]
  · intro s t p q hget hany
    obtain ⟨c, rest, hcr, hrr⟩ := hrev q
    simp only [fullLevelPath, fullCrumbs] at hget hany ⊢
    unfold tryAuthorizePath
    rw [hcr]
    simp only [tryAuthRev]
    rw [hrr, hget, hany]
    simp

/-- C3 witness: in `expiredDirectState`, principal `p` has a direct grant on
`/a/b` that expired at time 10 and a valid role grant on `/a`; at time 20
the check on `/a/b` fails with the expiry error while the check on `/a`
alone succeeds. -/
theorem c3_expired_direct_grant_authoritative_witness :
    tryAuthorizePath expiredDirectState 20 "p".data "/a/b".data =
      Except.error ("p".data ++ " access to ".data ++
        fullLevelPath "/a/b".data ++ " has expired".data) ∧
    tryAuthorizePath expiredDirectState 20 "p".data "/a".data = Except.ok () :=
  ⟨c3_expired_direct_grant_authoritative.1 expiredDirectState 20 "p".data
      "/a/b".data 10 (by rfl) (by decide),
   c3_expired_direct_grant_authoritative.2 expiredDirectState 20 "p".data
      "/a".data (by rfl) (by rfl)⟩

/-- C9: during hierarchical resolution, expired role memberships never by
themselves cause success: at a level with no direct grant where every role
indexed at the level has an invalid (absent or expired) membership, the
resolver yields no decision and continues with the shorter prefix instead
of terminating; and whenever some role at such a level does have a valid
membership, the level succeeds regardless of other expired memberships. -/
theorem c9_expired_role_membership_never_authorizes :
    (∀ (s : AclState) (t : Nat) (p q c : List Char)
       (rest : List (List Char)),
      alGet s.principalPathAuths
        (p, toCanonicalPathFromCrumbs (c :: rest).reverse) = none →
      (∀ r ∈ pathRolesAt s (toCanonicalPathFromCrumbs (c :: rest).reverse),
        memValid s t p r = false) →
      tryAuthRev s t p q (c :: rest) = tryAuthRev s t p q rest) ∧
    (∀ (s : AclState) (t : Nat) (p q c : List Char)
       (rest : List (List Char)) (r : List Char),
      alGet s.principalPathAuths
        (p, toCanonicalPathFromCrumbs (c :: rest).reverse) = none →
      r ∈ pathRolesAt s (toCanonicalPathFromCrumbs (c :: rest).reverse) →
      memValid s t p r = true →
      tryAuthRev s t p q (c :: rest) = Except.ok ()) := by
  constructor
  · intro s t p q c rest hget hall
    simp only [tryAuthRev, hget]
    have hany : (pathRolesAt s (toCanonicalPathFromCrumbs (c :: rest).reverse)).any
        (fun r => memValid s t p r) = false := by
      simp only [List.any_eq_false]
      intro r hr
      simp [hall r hr]
    rw [hany]
    simp
  · intro s t p q c rest r hget hr hmem
    simp only [tryAuthRev, hget]
    have hany : (pathRolesAt s (toCanonicalPathFromCrumbs (c :: rest).reverse)).any
        (fun r => memValid s t p r) = true :=
      List.any_eq_true.mpr ⟨r, hr, hmem⟩
    rw [hany]
    simp

/-- C9 witness: in `onlyExpiredState` at time 7 the only role at level `/x`
is held expired, so the resolver moves past the level (and then fails with
the not-authorized error, not an expiry error); in `expiredRoleState` at
time 7 role `old` at `/x` is expired but role `live` is valid, and the
level succeeds. -/
theorem c9_expired_role_membership_never_authorizes_witness :
    (tryAuthRev onlyExpiredState 7 "p".data "/x".data [['x']] =
      tryAuthRev onlyExpiredState 7 "p".data "/x".data [] ∧
     tryAuthRev onlyExpiredState 7 "p".data "/x".data [['x']] =
      Except.error ("p".data ++ " not authorized to ".data ++
        toCanonicalPath "/x".data)) ∧
    tryAuthRev expiredRoleState 7 "p".data "/x".data [['x']] = Except.ok () :=
  ⟨⟨c9_expired_role_membership_never_authorizes.1 onlyExpiredState 7 "p".data
      "/x".data ['x'] [] (by rfl) (by decide),
    by rfl⟩,
   c9_expired_role_membership_never_authorizes.2 expiredRoleState 7 "p".data
      "/x".data ['x'] [] "live".data (by rfl) (by decide) (by rfl)⟩

/-- A prefix of a list that drops nothing from the front also drops nothing
from the front. -/
theorem dropWhile_eq_self_of_prefix {p : Char → Bool} {u v : List Char}
    (h : u <+: v) (hv : v.dropWhile p = v) : u.dropWhile p = u := by
  cases u with
  | nil => rfl
  | cons a u2 =>
    obtain ⟨t, ht⟩ := h
    have hpa : p a = false := by
      cases hb : p a with
      | false => rfl
      | true =>
        rw [← ht, List.cons_append, List.dropWhile_cons_of_pos hb] at hv
        have h2 : List.Sublist (List.dropWhile p (u2 ++ t)) (u2 ++ t) :=
          (List.dropWhile_suffix p).sublist
        have h1 := congrArg List.length hv
        have h3 := h2.length_le
        simp [List.length_append] at h1 h3
        omega
    rw [List.dropWhile_cons_of_neg (by simp [hpa])]

/-- The output of slash trimming does not start with a slash. -/
theorem trimMatchesSlash_dropWhile (l : List Char) :
    (trimMatchesSlash l).dropWhile (fun c => decide (c = '/')) =
      trimMatchesSlash l :=
  dropWhile_eq_self_of_prefix ( List.rdropWhile_prefix _ _)
    (List.dropWhile_idempotent _ _)

/-- The output of slash trimming does not end with a slash. -/
theorem trimMatchesSlash_rdropWhile (l : List Char) :
    List.rdropWhile (fun c => decide (c = '/')) (trimMatchesSlash l) =
      trimMatchesSlash l :=
  List.rdropWhile_idempotent _ _

/-- Slash trimming only removes characters. -/
theorem trimMatchesSlash_sublist (l : List Char) :
    List.Sublist (trimMatchesSlash l) l :=
  (( List.rdropWhile_prefix _ _).sublist).trans ((List.dropWhile_suffix _).sublist)

/-- The space-to-hyphen substitution does not affect slash tests. -/
theorem replChar_slash_comp :
    ((fun c => decide (c = '/')) ∘ replChar) = (fun c => decide (c = '/')) := by
  funext c
  by_cases h : c = ' '
  · subst h; decide
  · simp [Function.comp, replChar, h]

/-- The space-to-hyphen substitution is idempotent. -/
theorem replChar_idem (c : Char) : replChar (replChar c) = replChar c := by
  by_cases h : c = ' '
  · subst h; decide
  · simp [replChar, h]

/-- On an input whose characters are all graphic or spaces, the trimmed,
space-substituted body consists of graphic characters only. -/
theorem replaceSpaceDash_graphic {l : List Char}
    (hl : ∀ c ∈ l, isAsciiGraphic c = true ∨ c = ' ') :
    ∀ c ∈ replaceSpaceDash (trimMatchesSlash l), isAsciiGraphic c = true := by
  intro c hc
  obtain ⟨c2, hc2, hrepl⟩ := List.mem_map.mp hc
  have hmem : c2 ∈ l := (trimMatchesSlash_sublist l).subset hc2
  rcases hl c2 hmem with hg | hsp
  · by_cases h : c2 = ' '
    · rw [h] at hg; exact absurd hg (by decide)
    · rw [← hrepl]; simpa [replChar, h] using hg
  · rw [← hrepl, hsp]; decide

/-- C4 amended: path canonicalization is idempotent on inputs all of whose
characters are ASCII-graphic or spaces (on arbitrary inputs it is not:
stripping non-printable characters can expose a new leading, trailing or
doubled slash that only the next application removes). -/
theorem c4_canonicalize_idempotent_on_clean_inputs :
    ∀ l : List Char, (∀ c ∈ l, isAsciiGraphic c = true ∨ c = ' ') →
      toCanonicalPath (toCanonicalPath l) = toCanonicalPath l := by
  intro l hl
  have hz := replaceSpaceDash_graphic hl
  have hA : toCanonicalPath l = '/' :: replaceSpaceDash (trimMatchesSlash l) := by
    show List.filter isAsciiGraphic
      (replaceSpaceDash ('/' :: trimMatchesSlash l)) = _
    rw [show replaceSpaceDash ('/' :: trimMatchesSlash l)
          = '/' :: replaceSpaceDash (trimMatchesSlash l) from rfl]
    rw [List.filter_cons_of_pos (by decide)]
    rw [List.filter_eq_self.mpr hz]
  have hdz : List.dropWhile (fun c => decide (c = '/'))
      (replaceSpaceDash (trimMatchesSlash l)) =
      replaceSpaceDash (trimMatchesSlash l) := by
    show List.dropWhile _ (List.map replChar (trimMatchesSlash l)) = _
    rw [List.dropWhile_map, replChar_slash_comp, trimMatchesSlash_dropWhile]
    rfl
  have hrz : List.rdropWhile (fun c => decide (c = '/'))
      (replaceSpaceDash (trimMatchesSlash l)) =
      replaceSpaceDash (trimMatchesSlash l) := by
    show List.rdropWhile _ (List.map replChar (trimMatchesSlash l)) = _
    simp only [List.rdropWhile]
    rw [← List.map_reverse, List.dropWhile_map, replChar_slash_comp]
    have hry : List.dropWhile (fun c => decide (c = '/'))
        (trimMatchesSlash l).reverse = (trimMatchesSlash l).reverse := by
      have h0 := trimMatchesSlash_rdropWhile l
      simp only [List.rdropWhile] at h0
      simpa using congrArg List.reverse h0
    rw [hry, List.map_reverse, List.reverse_reverse]
    rfl
  have hB : trimMatchesSlash ('/' :: replaceSpaceDash (trimMatchesSlash l))
      = replaceSpaceDash (trimMatchesSlash l) := by
    show List.rdropWhile _
      (List.dropWhile _ ('/' :: replaceSpaceDash (trimMatchesSlash l))) = _
    rw [List.dropWhile_cons_of_pos (by decide), hdz, hrz]
  have hmapz : List.map replChar (replaceSpaceDash (trimMatchesSlash l))
      = replaceSpaceDash (trimMatchesSlash l) := by
    show List.map replChar (List.map replChar (trimMatchesSlash l)) = _
    rw [List.map_map]
    rw [show (replChar ∘ replChar) = replChar from funext replChar_idem]
    rfl
  have hC : toCanonicalPath ('/' :: replaceSpaceDash (trimMatchesSlash l))
      = '/' :: replaceSpaceDash (trimMatchesSlash l) := by
    show List.filter isAsciiGraphic (replaceSpaceDash
      ('/' :: trimMatchesSlash ('/' :: replaceSpaceDash (trimMatchesSlash l)))) = _
    rw [hB]
    rw [show replaceSpaceDash ('/' :: replaceSpaceDash (trimMatchesSlash l))
          = '/' :: List.map replChar (replaceSpaceDash (trimMatchesSlash l)) from rfl]
    rw [hmapz]
    rw [List.filter_cons_of_pos (by decide)]
    rw [List.filter_eq_self.mpr hz]
  rw [hA, hC]

/-- C4 witness: the messy but printable input `//foo bar//` satisfies the
cleanliness hypothesis and canonicalizes idempotently (to `/foo-bar`). -/
theorem c4_canonicalize_idempotent_on_clean_inputs_witness :
    (∀ c ∈ "//foo bar//".data, isAsciiGraphic c = true ∨ c = ' ') ∧
    toCanonicalPath (toCanonicalPath "//foo bar//".data) =
      toCanonicalPath "//foo bar//".data :=
  ⟨by decide, c4_canonicalize_idempotent_on_clean_inputs "//foo bar//".data
    (by decide)⟩

/-- C6 amended: creating a role whose `RoleInfo` already exists fails, and
granting a role whose `RoleInfo` is absent fails, but both with the
`NotAuthorized` error kind (messages `role {name} already exists` and
`role {role} does not exist`), not with `AlreadyExists` or `NotFound`. -/
theorem c6_role_errors_use_notAuthorized_kind :
    (∀ (s : AclState) (t : Nat) (sender name : List Char)
       (desc : Option (List Char)) (paths : Option (List (List Char)))
       (info : AuthRoleInfo),
      alGet s.roleInfos name = some info →
      execCreateRole s t sender name desc paths =
        Except.error (ContractError.notAuthorized
          ("role ".data ++ name ++ " already exists".data))) ∧
    (∀ (s : AclState) (t : Nat) (principal role : List Char) (ttl : Option Nat),
      alGet s.roleInfos role = none →
      execGrantRole s t principal role ttl =
        Except.error (ContractError.notAuthorized
          ("role ".data ++ role ++ " does not exist".data))) := by
  constructor
  · intro s t sender name desc paths info h
    simp only [execCreateRole, h]
  · intro s t principal role ttl h
    simp only [execGrantRole, h]

/-- C6 witness: creating `admin` again in the state that already holds it,
and granting the absent role `ghost` in the empty state, both fail with
the `NotAuthorized` kind and the respective messages. -/
theorem c6_role_errors_use_notAuthorized_kind_witness :
    execCreateRole adminState 0 "op".data "admin".data none none =
      Except.error (ContractError.notAuthorized
        ("role ".data ++ "admin".data ++ " already exists".data)) ∧
    execGrantRole AclState.empty 0 "p".data "ghost".data none =
      Except.error (ContractError.notAuthorized
        ("role ".data ++ "ghost".data ++ " does not exist".data)) :=
  ⟨c6_role_errors_use_notAuthorized_kind.1 adminState 0 "op".data "admin".data
      none none ⟨none, 0, "op".data, 0⟩ (by rfl),
   c6_role_errors_use_notAuthorized_kind.2 AclState.empty 0 "p".data
      "ghost".data none (by rfl)⟩

/-- The key order of the storage model is asymmetric. -/
theorem lexLt_asymm : ∀ a b : List Char, lexLt a b = true → lexLt b a = false
  | [], [], h => by simp [lexLt] at h
  | [], _ :: _, _ => by simp [lexLt]
  | _ :: _, [], h => by simp [lexLt] at h
  | a :: as, b :: bs, h => by
    simp only [lexLt] at h ⊢
    by_cases h1 : a.toNat < b.toNat
    · have h2 : ¬ b.toNat < a.toNat := by omega
      simp [h1, h2]
    · by_cases h2 : b.toNat < a.toNat
      · simp [h1, h2] at h
      · simp [h1, h2] at h ⊢
        exact lexLt_asymm as bs h

/-- The key order of the storage model is transitive. -/
theorem lexLt_trans : ∀ a b c : List Char,
    lexLt a b = true → lexLt b c = true → lexLt a c = true
  | [], [], _, h1, _ => by simp [lexLt] at h1
  | [], _ :: _, [], _, h2 => by simp [lexLt] at h2
  | [], _ :: _, _ :: _, _, _ => by simp [lexLt]
  | _ :: _, [], _, h1, _ => by simp [lexLt] at h1
  | _ :: _, _ :: _, [], _, h2 => by simp [lexLt] at h2
  | a :: as, b :: bs, c :: cs, h1, h2 => by
    simp only [lexLt] at h1 h2 ⊢
    by_cases hab : a.toNat < b.toNat <;> by_cases hbc : b.toNat < c.toNat
    · have hac : a.toNat < c.toNat := by omega
      simp [hac]
    · by_cases hcb : c.toNat < b.toNat
      · simp [hbc, hcb] at h2
      · have hac : a.toNat < c.toNat := by omega
        simp [hac]
    · by_cases hba : b.toNat < a.toNat
      · simp [hab, hba] at h1
      · have hac : a.toNat < c.toNat := by omega
        simp [hac]
    · by_cases hba : b.toNat < a.toNat
      · simp [hab, hba] at h1
      · by_cases hcb : c.toNat < b.toNat
        · simp [hbc, hcb] at h2
        · simp [hab, hba] at h1
          simp [hbc, hcb] at h2
          have hac1 : ¬ a.toNat < c.toNat := by omega
          have hac2 : ¬ c.toNat < a.toNat := by omega
          simp [hac1, hac2]
          exact lexLt_trans as bs cs h1 h2

/-- Ordered insertion only adds the inserted element. -/
theorem mem_insertAscKey {β : Type} (key : β → List Char) (x : β) :
    ∀ (l : List β) (z : β), z ∈ insertAscKey key x l → z = x ∨ z ∈ l
  | [], z, h => by simpa [insertAscKey] using h
  | y :: l, z, h => by
    simp only [insertAscKey] at h
    split at h
    · rcases List.mem_cons.mp h with h1 | h1
      · exact Or.inl h1
      · exact Or.inr h1
    · rcases List.mem_cons.mp h with h1 | h1
      · exact Or.inr (by rw [h1]; exact List.mem_cons_self _ _)
      · rcases mem_insertAscKey key x l z h1 with h2 | h2
        · exact Or.inl h2
        · exact Or.inr (List.mem_cons_of_mem _ h2)

/-- Ordered insertion preserves ascending sortedness. -/
theorem pairwise_insertAscKey {β : Type} (key : β → List Char) (x : β) :
    ∀ l : List β,
      List.Pairwise (fun u v => lexLt (key v) (key u) = false) l →
      List.Pairwise (fun u v => lexLt (key v) (key u) = false)
        (insertAscKey key x l)
  | [], _ => by simp [insertAscKey]
  | y :: l, hp => by
    rcases List.pairwise_cons.mp hp with ⟨hy, hl⟩
    simp only [insertAscKey]
    split
    · rename_i hx
      refine List.pairwise_cons.mpr ⟨?_, hp⟩
      intro z hz
      rcases List.mem_cons.mp hz with h1 | h1
      · rw [h1]; exact lexLt_asymm _ _ hx
      · cases hzc : lexLt (key z) (key x) with
        | false => rfl
        | true =>
          have h3 := lexLt_trans _ _ _ hzc hx
          simp [hy z h1] at h3
    · rename_i hx
      refine List.pairwise_cons.mpr ⟨?_, pairwise_insertAscKey key x l hl⟩
      intro z hz
      rcases mem_insertAscKey key x l z hz with h1 | h1
      · rw [h1]; simpa using hx
      · exact hy z h1

/-- The read-time sort yields lists that are ascending in the key order. -/
theorem pairwise_sortAscKey {β : Type} (key : β → List Char) (l : List β) :
    List.Pairwise (fun u v => lexLt (key v) (key u) = false) (sortAscKey key l) := by
  induction l with
  | nil => simp [sortAscKey]
  | cons x l ih => exact pairwise_insertAscKey key x _ ih

/-- Every subject's full scan list is ascending in the path order. -/
theorem pairwise_basePage (s : AclState) (subj : Subject) :
    List.Pairwise (fun a b => lexLt b.path a.path = false) (basePage s subj) := by
  cases subj with
  | acl => exact List.pairwise_map.mpr (pairwise_sortAscKey id _)
  | role r => exact List.pairwise_map.mpr (pairwise_sortAscKey id _)
  | principal pr => exact List.pairwise_map.mpr (pairwise_sortAscKey Prod.fst _)

/-- C8 amended: for every subject and state, the paginated path listing
returns at most the requested page size of paths (default 100 when no size
is given, capped at 500), in ascending key order, all satisfying the bound
checks (a cursor is an exclusive lower bound, start/stop are inclusive);
the next-page cursor is present if and only if the returned page is
non-empty and exactly of the page size. In the two-path role scenario the
first page-size-1 query returns `["/x"]` with cursor `"/x"`, the follow-up
from `"/x"` returns `["/y"]` with cursor `"/y"` (the page is again full),
and a third query from `"/y"` returns `[]` with no cursor. -/
theorem c8_paths_pagination_properties :
    (∀ (s : AclState) (params : PathsQueryParams),
      (queryPaths s params).paths.length ≤ min (params.limit.getD 100) 500) ∧
    (∀ (s : AclState) (params : PathsQueryParams),
      List.Pairwise (fun a b => lexLt b.path a.path = false)
        (queryPaths s params).paths) ∧
    (∀ (s : AclState) (params : PathsQueryParams) (i : PathInfo),
      i ∈ (queryPaths s params).paths →
      inBounds params.cursor params.start params.stop i.path = true) ∧
    (∀ (s : AclState) (params : PathsQueryParams),
      (queryPaths s params).cursor.isSome = true ↔
        ((queryPaths s params).paths.length = min (params.limit.getD 100) 500 ∧
         (queryPaths s params).paths ≠ [])) ∧
    (rolePathsFixture.map (fun s =>
      (queryPaths s
        { subject := Subject.role "r".data, limit := some 1,
          start := none, stop := none, cursor := none },
       queryPaths s
        { subject := Subject.role "r".data, limit := some 1,
          start := none, stop := none, cursor := some "/x".data },
       queryPaths s
        { subject := Subject.role "r".data, limit := some 1,
          start := none, stop := none, cursor := some "/y".data })) =
     Except.ok
      ({ paths := [{ path := "/x".data, expiresAt := none }],
         cursor := some "/x".data },
       { paths := [{ path := "/y".data, expiresAt := none }],
         cursor := some "/y".data },
       { paths := [], cursor := none })) := by
  refine ⟨?_, ?_, ?_, ?_, by rfl⟩
  · intro s params
    exact List.length_take_le _ _
  · intro s params
    exact List.Pairwise.sublist (List.take_sublist _ _)
      ((pairwise_basePage s params.subject).filter _)
  · intro s params i hi
    have h1 := List.mem_of_mem_take hi
    exact (List.mem_filter.mp h1).2
  · intro s params
    simp only [queryPaths]
    split
    · rename_i h
      simp only [Option.isSome_map', List.getLast?_isSome, h]
      simp
    · rename_i h
      refine ⟨fun habs => ?_, fun hand => ?_⟩
      · simp at habs
      · exact absurd hand.1 h

/-- C8 witness: with the two-path role fixture and a page-size-1 query from
cursor `"/x"`, the page length respects the size bound and the returned
path `/y` satisfies the exclusive cursor bound. -/
theorem c8_paths_pagination_properties_witness :
    (queryPaths rolePathsState
      { subject := Subject.role "r".data, limit := some 1, start := none,
        stop := none, cursor := some "/x".data }).paths.length ≤
      min ((some 1).getD 100) 500 ∧
    inBounds (some "/x".data) none none
      ({ path := "/y".data, expiresAt := none } : PathInfo).path = true :=
  ⟨c8_paths_pagination_properties.1 rolePathsState
    { subject := Subject.role "r".data, limit := some 1, start := none,
      stop := none, cursor := some "/x".data },
   c8_paths_pagination_properties.2.2.1 rolePathsState
    { subject := Subject.role "r".data, limit := some 1, start := none,
      stop := none, cursor := some "/x".data }
    { path := "/y".data, expiresAt := none } (by decide)⟩

/-- C10: `IsAllowed` over an empty path list never returns `true`: for
every state, time, principal, require mode and raise flag it returns
`false` when `raise` is unset and raises `NotAuthorized` with an empty
joined message when `raise` is set, because the final aggregate check
compares zero accumulated errors with zero paths. -/
theorem c10_empty_paths_never_true (s : AclState) (t : Nat) (p : List Char)
    (req : Option TestRequirement) (rai : Option Bool) :
    queryIsAllowed s t { principal := p, require := req, paths := [], raise := rai } =
      if rai.getD false then Except.error (ContractError.notAuthorized [])
      else Except.ok false := by
  rcases req with _ | req <;> [skip; cases req] <;>
    rcases rai with _ | rai <;> [rfl; cases rai <;> rfl; rfl;
      cases rai <;> rfl; rfl; cases rai <;> rfl]

end CwAcl
